import Mathlib

/-!
Verification of the blogicum application (a Django blog project) against its
natural-language specification.  The relevant source lives in
`blogicum/blog/views.py` and `blogicum/blog/forms.py`; the request handlers,
visibility filters, authorization mixins and form initialisation are embedded
below as pure functions over explicit stores (lists of records).  Timestamps
are modelled as natural numbers (seconds); viewers are `Option Nat` — `none`
is the anonymous visitor, `some u` the authenticated user with id `u`.
-/

namespace Blogicum

/-- Lexicographic order on lists of naturals, used to model string ordering
(the `order_by('title')` / `order_by('name')` clauses). -/
def lexLe : List Nat → List Nat → Bool
  | [], _ => true
  | _ :: _, [] => false
  | a :: as, b :: bs => if a < b then true else if b < a then false else lexLe as bs

/-- Lexicographic comparison of strings by code points. -/
def strLe (a b : String) : Bool := lexLe (a.data.map Char.toNat) (b.data.map Char.toNat)

/-- A record of the `Category` model: title, unique slug, published flag. -/
structure Category where
  id : Nat
  slug : String
  title : String
  is_published : Bool
deriving DecidableEq, Repr

/-- A record of the `Location` model: name, published flag. -/
structure Location where
  id : Nat
  name : String
  is_published : Bool
deriving DecidableEq, Repr

/-- A record of the `Post` model as the views consume it.  The foreign keys
to `Category` and `Location` are embedded as the referenced records
(both are nullable in the schema); `author` is the author's user id. -/
structure Post where
  id : Nat
  author : Nat
  category : Option Category
  location : Option Location
  is_published : Bool
  pub_date : Nat
deriving DecidableEq, Repr

/-- A record of the `Comment` model: author user id, parent post id, text. -/
structure Comment where
  id : Nat
  author : Nat
  post : Nat
  text : String
deriving DecidableEq, Repr

/-- A record of the `User` model as the registration form consumes it. -/
structure User where
  id : Nat
  username : String
  email : String
  first_name : String
  last_name : String
deriving DecidableEq, Repr

/-- A viewer identity: `none` is anonymous, `some u` is authenticated user `u`. -/
abbrev Viewer := Option Nat

/-- The ORM filter `category__is_published=True` on a post: it traverses the
(nullable) category foreign key, so a post with no category does not match. -/
def categoryPublished (p : Post) : Bool :=
  match p.category with
  | some c => c.is_published
  | none => false

/-- The ordering `order_by('-pub_date')` applied by every listing view:
descending by publication timestamp (a stable sort). -/
def sortByPubDateDesc (l : List Post) : List Post :=
  l.insertionSort (fun a b => b.pub_date ≤ a.pub_date)

/-- The `annotate(comment_count=Count('comments'))` clause of the listing
views: the number of comments whose parent is the given post. -/
def comment_count (comments : List Comment) (p : Post) : Nat :=
  (comments.filter (fun c => c.post == p.id)).length

/-- Number of pages of the external pagination component for `count` records
at `per` records per page: the ceiling of `max 1 count / per` (an empty record
set still has one, empty, page). -/
def numPages (count per : Nat) : Nat := (max 1 count + (per - 1)) / per

/-- The records on 1-based page `n` at `per` records per page. -/
def pageItems {α : Type} (l : List α) (per n : Nat) : List α :=
  (l.drop ((n - 1) * per)).take per

/-- Model of the external pagination component used by all listing views
(`Paginator(..., 10)` with `get_page(page_number)`), per its documented
behavior: a missing or non-integer page parameter yields the first page; an
integer below 1 or above the number of pages yields the last page; an
in-range integer yields that page.  The page request is `none` for a missing
or non-integer parameter and `some n` for the integer `n`. -/
def get_page {α : Type} (l : List α) (per : Nat) (req : Option Int) : List α :=
  let np := numPages l.length per
  match req with
  | none => pageItems l per 1
  | some n => if n < 1 || n > (np : Int) then pageItems l per np else pageItems l per n.toNat

/-- The filtered, ordered post list of the home page view `index`:
`filter(pub_date__lte=now, is_published=True, category__is_published=True)`
then `order_by('-pub_date')`. -/
def index_posts (posts : List Post) (now : Nat) : List Post :=
  sortByPubDateDesc (posts.filter (fun p =>
    (p.pub_date ≤ now : Bool) && p.is_published && categoryPublished p))

/-- The home page view `index`: the published-only filter is applied with no
reference to the requesting viewer, then the result is paginated at 10 per
page.  The viewer argument is deliberately unused, as in the source. -/
def index (posts : List Post) (_viewer : Viewer) (now : Nat) (page : Option Int) : List Post :=
  get_page (index_posts posts now) 10 page

/-- The filtered, ordered post list of the category view for a resolved
category `c`: `filter(category=category, is_published=True,
pub_date__lte=now)` then `order_by('-pub_date')`. -/
def category_post_list (posts : List Post) (c : Category) (now : Nat) : List Post :=
  sortByPubDateDesc (posts.filter (fun p =>
    p.category == some c && p.is_published && (p.pub_date ≤ now : Bool)))

/-- The category page view `category_posts`: resolve the category by slug via
`get_object_or_404(Category, slug=category_slug, is_published=True)` — `none`
models the `NotFound` outcome — then filter, order and paginate that
category's posts.  The viewer argument is deliberately unused, as in the
source. -/
def category_posts (cats : List Category) (posts : List Post) (_viewer : Viewer)
    (now : Nat) (slug : String) (page : Option Int) : Option (Category × List Post) :=
  match cats.find? (fun c => c.slug == slug && c.is_published) with
  | none => none
  | some c => some (c, get_page (category_post_list posts c now) 10 page)

/-- The post list of `ProfileView.get_context_data` for the profile of user
`target`: all of the target's posts ordered by `-pub_date`; when the viewer
is not the target (`self.request.user != user`, which also holds for the
anonymous visitor), the published-only filter is applied on top. -/
def profile_posts (posts : List Post) (viewer : Viewer) (target : Nat) (now : Nat) :
    List Post :=
  let mine := sortByPubDateDesc (posts.filter (fun p => p.author == target))
  if viewer == some target then mine
  else mine.filter (fun p =>
    p.is_published && categoryPublished p && (p.pub_date ≤ now : Bool))

/-- The paginated page of the profile listing (10 records per page). -/
def profile_page (posts : List Post) (viewer : Viewer) (target : Nat) (now : Nat)
    (page : Option Int) : List Post :=
  get_page (profile_posts posts viewer target now) 10 page

/-- The queryset filter of `post_detail`: an authenticated user sees
`Q(author=request.user) | Q(is_published=True, category__is_published=True,
pub_date__lte=now)`; the anonymous visitor sees only the second disjunct. -/
def detail_filter (viewer : Viewer) (now : Nat) (p : Post) : Bool :=
  match viewer with
  | some u => p.author == u
      || (p.is_published && categoryPublished p && (p.pub_date ≤ now : Bool))
  | none => p.is_published && categoryPublished p && (p.pub_date ≤ now : Bool)

/-- The detail view `post_detail`: `get_object_or_404(posts, pk=post_id)` on
the visibility-filtered queryset; `none` models the `NotFound` outcome. -/
def post_detail (posts : List Post) (viewer : Viewer) (now : Nat) (pid : Nat) :
    Option Post :=
  (posts.filter (detail_filter viewer now)).find? (fun p => p.id == pid)

/-- The effective-visibility predicate exactly as the specification's section 3
states it: the viewer is authenticated and is the post's author, or the post
is published, its category is published, and its publication date has passed.
This definition follows the spec's words and is compared against the
source-derived `detail_filter`. -/
def visible_spec (p : Post) (viewer : Viewer) (now : Nat) : Bool :=
  (match viewer with
   | some u => u == p.author
   | none => false)
  || (p.is_published && categoryPublished p && (p.pub_date ≤ now : Bool))

/-- Outcome of dispatching a mutating view guarded by `LoginRequiredMixin`
and `AuthorRequiredMixin`. -/
inductive GateResult (α : Type) where
  | authenticationRequired : GateResult α
  | notFound : GateResult α
  | forbidden : GateResult α
  | allowed : α → GateResult α
deriving DecidableEq, Repr

/-- The dispatch order of `PostUpdateView` / `PostDeleteView`
(`LoginRequiredMixin, AuthorRequiredMixin, ...`): an anonymous request is
redirected to login before anything else; for an authenticated request,
`AuthorRequiredMixin.test_func` calls `self.get_object()`, which raises
`NotFound` for a missing post, and only then compares
`self.request.user == obj.author`, yielding `Forbidden` on mismatch. -/
def post_modify_gate (posts : List Post) (viewer : Viewer) (post_id : Nat) :
    GateResult Post :=
  match viewer with
  | none => .authenticationRequired
  | some u =>
    match posts.find? (fun p => p.id == post_id) with
    | none => .notFound
    | some p => if p.author == u then .allowed p else .forbidden

/-- The identical dispatch for `CommentUpdateView` / `CommentDeleteView`
(same mixins; the comment is looked up by `comment_id` alone). -/
def comment_modify_gate (comments : List Comment) (viewer : Viewer) (comment_id : Nat) :
    GateResult Comment :=
  match viewer with
  | none => .authenticationRequired
  | some u =>
    match comments.find? (fun c => c.id == comment_id) with
    | none => .notFound
    | some c => if c.author == u then .allowed c else .forbidden

/-- Outcome of a comment edit/delete request: on success, the new comment
store and the post id of the detail page redirected to. -/
inductive CommentActionResult where
  | authenticationRequired : CommentActionResult
  | notFound : CommentActionResult
  | forbidden : CommentActionResult
  | success : List Comment → Nat → CommentActionResult
deriving DecidableEq, Repr

/-- The comment edit view `CommentUpdateView`: gate by authentication and
authorship of the comment found by `comment_id` (the `post_id` URL argument
is never checked against the comment), update the text, and redirect to the
detail view of the `post_id` taken from the URL kwargs
(`self.kwargs.get('post_id')`). -/
def comment_update (comments : List Comment) (viewer : Viewer) (post_id comment_id : Nat)
    (newText : String) : CommentActionResult :=
  match comment_modify_gate comments viewer comment_id with
  | .authenticationRequired => .authenticationRequired
  | .notFound => .notFound
  | .forbidden => .forbidden
  | .allowed _ => .success
      (comments.map (fun d => if d.id == comment_id then { d with text := newText } else d))
      post_id

/-- The comment delete view `CommentDeleteView`: same gate; on success the
comment is removed and the redirect again targets the `post_id` from the URL
kwargs, not the comment's own parent post. -/
def comment_delete (comments : List Comment) (viewer : Viewer) (post_id comment_id : Nat) :
    CommentActionResult :=
  match comment_modify_gate comments viewer comment_id with
  | .authenticationRequired => .authenticationRequired
  | .notFound => .notFound
  | .forbidden => .forbidden
  | .allowed _ => .success
      (comments.filter (fun d => !(d.id == comment_id)))
      post_id

/-- HTTP method of a request to `add_comment`. -/
inductive Method where
  | get : Method
  | post : Method
deriving DecidableEq, Repr

/-- Outcome of the `add_comment` view: a login redirect for the anonymous
visitor (`@login_required`), `NotFound` for a missing post, or a redirect to
the post's detail view together with the (possibly unchanged) comment
store. -/
inductive AddCommentResult where
  | loginRedirect : AddCommentResult
  | notFound : AddCommentResult
  | redirected : Nat → List Comment → AddCommentResult
deriving DecidableEq, Repr

/-- Whitespace test used by the framework's text-field stripping. -/
def isSpace (c : Char) : Bool := c == ' ' || c == '\t' || c == '\n' || c == '\r'

/-- Stripping of leading and trailing whitespace, as the framework applies to
submitted text fields before validation. -/
def strip (s : String) : String :=
  ⟨((s.data.dropWhile isSpace).reverse.dropWhile isSpace).reverse⟩

/-- Modelled from the spec: the `Comment` model (`blog/models.py` is not in
the analysed sources) exposes only the `text` field to `CommentForm`, with
"no field-level validation beyond non-blank-by-framework-default"; the
framework strips surrounding whitespace and requires the result non-empty. -/
def comment_form_valid (text : String) : Bool := !(strip text == "")

/-- The `add_comment` view: `@login_required` redirects the anonymous visitor
to login; `get_object_or_404(Post, pk=post_id)` checks bare existence of the
post (visibility is not re-checked); then a valid POST persists exactly one
new comment with `comment.post = post` and `comment.author = request.user`
and redirects to the post's detail view, while a GET or an invalid form
redirects to the same detail view with the store unchanged. -/
def add_comment (posts : List Post) (comments : List Comment) (viewer : Viewer)
    (m : Method) (text : String) (post_id newId : Nat) : AddCommentResult :=
  match viewer with
  | none => .loginRedirect
  | some u =>
    match posts.find? (fun p => p.id == post_id) with
    | none => .notFound
    | some _ =>
      match m with
      | .post =>
        if comment_form_valid text then
          .redirected post_id
            (comments ++ [{ id := newId, author := u, post := post_id, text := strip text }])
        else
          .redirected post_id comments
      | .get => .redirected post_id comments

/-- The `self.instance` of a `PostForm`: `pk` is `none` for a fresh instance
(creating a new post) and `some k` when editing the stored post `k`. -/
structure PostFormInstance where
  pk : Option Nat
  pub_date : Option Nat
  category : Option Category
  location : Option Location
deriving DecidableEq, Repr

/-- Truncation of a timestamp (in seconds) to minute precision, as performed
by `strftime('%Y-%m-%dT%H:%M')`, which drops seconds and microseconds. -/
def truncateToMinute (t : Nat) : Nat := t / 60 * 60

/-- The observable state of a `PostForm` after `__init__`: the category and
location choice sets offered by the two select fields, the initial value of
the `pub_date` field, and the (unmodified) model instance bound to the
form. -/
structure PostFormState where
  category_choices : List Category
  location_choices : List Location
  initial_pub_date : Option Nat
  inst : PostFormInstance
deriving DecidableEq, Repr

/-- `PostForm.__init__`: restrict the category choices to
`Category.objects.filter(is_published=True).order_by('title')` and the
location choices to `Location.objects.filter(is_published=True)
.order_by('name')` (presentation-time filtering of the select fields; the
bound instance itself is left untouched); then set the initial `pub_date` to
the current time truncated to the minute for a fresh instance, or to the
stored `pub_date` truncated to the minute when editing an existing post that
has one. -/
def postFormInit (cats : List Category) (locs : List Location) (now : Nat)
    (inst : PostFormInstance) : PostFormState :=
  { category_choices :=
      (cats.filter (fun c => c.is_published)).insertionSort
        (fun a b => strLe a.title b.title = true)
  , location_choices :=
      (locs.filter (fun l => l.is_published)).insertionSort
        (fun a b => strLe a.name b.name = true)
  , initial_pub_date :=
      if inst.pk == none then some (truncateToMinute now)
      else
        match inst.pub_date with
        | some d => some (truncateToMinute d)
        | none => none
  , inst := inst }

/-- Input to the registration form `CustomUserCreationForm`: username and
email are required; first and last name are optional. -/
structure RegistrationInput where
  username : String
  email : String
  first_name : Option String
  last_name : Option String
deriving DecidableEq, Repr

/-- `CustomUserCreationForm.clean_email`: reject the email
(`ValidationError`, modelled as `none`) when a stored user already has it. -/
def clean_email (users : List User) (email : String) : Option String :=
  if users.any (fun u => u.email == email) then none else some email

/-- Outcome of a registration attempt: the duplicate-email failure, or the
new user store together with the created user. -/
inductive RegResult where
  | duplicateEmail : RegResult
  | registered : List User → User → RegResult
deriving DecidableEq, Repr

/-- Registration: `clean_email` gates creation; on success,
`CustomUserCreationForm.save` persists a user whose email, first name and
last name come from the cleaned data, the optional names defaulting to the
empty string when omitted. -/
def register (users : List User) (newId : Nat) (inp : RegistrationInput) : RegResult :=
  match clean_email users inp.email with
  | none => .duplicateEmail
  | some e =>
    let u : User :=
      { id := newId, username := inp.username, email := e
      , first_name := inp.first_name.getD "", last_name := inp.last_name.getD "" }
    .registered (users ++ [u]) u

/-- The user store after a registration attempt: unchanged on failure (the
`ValidationError` aborts the save), extended by the new user on success. -/
def register_store (users : List User) (newId : Nat) (inp : RegistrationInput) :
    List User :=
  match register users newId inp with
  | .duplicateEmail => users
  | .registered us _ => us

/-! ### Shared sample records used by witness theorems -/

/-- A published category. -/
def catNews : Category := { id := 1, slug := "news", title := "News", is_published := true }

/-- An unpublished category. -/
def catHidden : Category := { id := 2, slug := "old", title := "Old", is_published := false }

/-- A post visible to everyone (published, published category, past date). -/
def postPub : Post :=
  { id := 1, author := 1, category := some catNews, location := none
  , is_published := true, pub_date := 50 }

/-- An unpublished post by author 2. -/
def postDraft : Post :=
  { id := 2, author := 2, category := some catNews, location := none
  , is_published := false, pub_date := 50 }

/-- A deferred post by author 1: published flags set, future date. -/
def postFuture : Post :=
  { id := 3, author := 1, category := some catNews, location := none
  , is_published := true, pub_date := 500 }

/-- Twenty-five qualifying posts, for pagination witnesses. -/
def samplePosts25 : List Post :=
  (List.range 25).map (fun i =>
    { id := i, author := 1, category := some catNews, location := none
    , is_published := true, pub_date := i })

/-- A registered user, for registration witnesses. -/
def aliceUser : User :=
  { id := 1, username := "alice", email := "alice@example.com"
  , first_name := "", last_name := "" }

/-! ### Shared lemmas -/

theorem lexLe_total : ∀ as bs, lexLe as bs = true ∨ lexLe bs as = true := by
  intro as
  induction as with
  | nil => intro bs; left; rfl
  | cons a as ih =>
    intro bs
    cases bs with
    | nil => right; rfl
    | cons b bs =>
      by_cases h1 : a < b
      · left; simp [lexLe, h1]
      · by_cases h2 : b < a
        · right; simp [lexLe, h1, h2]
        · rcases ih bs with h | h
          · left; simp [lexLe, h1, h2, h]
          · right; simp [lexLe, h1, h2, h]

theorem lexLe_trans :
    ∀ as bs cs, lexLe as bs = true → lexLe bs cs = true → lexLe as cs = true := by
  intro as
  induction as with
  | nil => intro bs cs _ _; rfl
  | cons a as ih =>
    intro bs cs hab hbc
    cases bs with
    | nil => simp [lexLe] at hab
    | cons b bs =>
      cases cs with
      | nil => simp [lexLe] at hbc
      | cons c cs =>
        simp only [lexLe] at hab hbc ⊢
        by_cases h1 : a < b <;> by_cases h2 : b < a <;>
          by_cases h3 : b < c <;> by_cases h4 : c < b <;>
          by_cases h5 : a < c <;> by_cases h6 : c < a <;>
          simp only [h1, h2, h3, h4, h5, h6, if_true, if_false, if_pos, if_neg,
            not_false_eq_true, not_true_eq_false] at hab hbc ⊢ <;>
          first
            | rfl
            | omega
            | exact ih bs cs hab hbc
            | simp_all

theorem mem_sortByPubDateDesc {l : List Post} {p : Post} :
    p ∈ sortByPubDateDesc l ↔ p ∈ l :=
  (List.perm_insertionSort _ l).mem_iff

theorem mem_of_mem_pageItems {α : Type} {l : List α} {per n : Nat} {x : α}
    (h : x ∈ pageItems l per n) : x ∈ l :=
  List.drop_subset _ _ (List.take_subset _ _ h)

theorem mem_of_mem_get_page {α : Type} {l : List α} {per : Nat} {req : Option Int} {x : α}
    (h : x ∈ get_page l per req) : x ∈ l := by
  unfold get_page at h
  cases req with
  | none => exact mem_of_mem_pageItems h
  | some n =>
    simp only at h
    split at h <;> exact mem_of_mem_pageItems h

/-- The source's detail-view queryset filter coincides with the spec's
effective-visibility formula. -/
theorem detail_filter_eq_visible_spec (viewer : Viewer) (now : Nat) (p : Post) :
    detail_filter viewer now p = visible_spec p viewer now := by
  cases viewer with
  | none => simp [detail_filter, visible_spec]
  | some u =>
    simp only [detail_filter, visible_spec]
    have hcomm : (p.author == u) = (u == p.author) := by
      by_cases h : p.author = u
      · subst h; rfl
      · rw [beq_eq_false_iff_ne.mpr h, beq_eq_false_iff_ne.mpr (Ne.symm h)]
    rw [hcomm]

theorem eq_of_id_eq {l : List Post} (huniq : l.Pairwise (fun a b => a.id ≠ b.id))
    {q P : Post} (hq : q ∈ l) (hP : P ∈ l) (h : q.id = P.id) : q = P := by
  by_cases hqP : q = P
  · exact hqP
  · have hsym : Symmetric (fun a b : Post => a.id ≠ b.id) :=
      fun x y hxy h2 => hxy h2.symm
    exact absurd h (List.Pairwise.forall hsym huniq hq hP hqP)

theorem find?_id_of_mem {l : List Post} {P : Post}
    (hmem : P ∈ l) (hall : ∀ q ∈ l, q.id = P.id → q = P) :
    l.find? (fun q => q.id == P.id) = some P := by
  induction l with
  | nil => cases hmem
  | cons a l ih =>
    by_cases ha : a.id = P.id
    · have haP : a = P := hall a (List.mem_cons_self a l) ha
      subst haP
      simp [List.find?_cons_of_pos]
    · have hmem' : P ∈ l := by
        rcases List.mem_cons.mp hmem with h | h
        · exact absurd (congrArg Post.id h).symm ha
        · exact h
      rw [List.find?_cons_of_neg]
      · exact ih hmem' (fun q hq hid => hall q (List.mem_cons_of_mem a hq) hid)
      · simp [ha]

/-! ### C1 -/

/-- C1: for every post P and viewer V, the detail operation returns P exactly
when the spec's effective-visibility predicate holds (V is the authenticated
author, or the post is published in a published category with a past date),
and otherwise yields NotFound (`none`); a request for an id matching no post
also yields NotFound, so an invisible post is indistinguishable from a
non-existent one. -/
theorem C1_detail_matches_visibility (posts : List Post) (viewer : Viewer) (now : Nat)
    (huniq : posts.Pairwise (fun a b => a.id ≠ b.id)) :
    (∀ P ∈ posts, post_detail posts viewer now P.id =
        (if visible_spec P viewer now then some P else none)) ∧
    (∀ pid : Nat, (∀ p ∈ posts, p.id ≠ pid) → post_detail posts viewer now pid = none) := by
  constructor
  · intro P hP
    by_cases hv : visible_spec P viewer now = true
    · rw [if_pos hv]
      unfold post_detail
      apply find?_id_of_mem
      · exact List.mem_filter.mpr ⟨hP, by rw [detail_filter_eq_visible_spec]; exact hv⟩
      · intro q hq hid
        exact eq_of_id_eq huniq (List.mem_filter.mp hq).1 hP hid
    · rw [if_neg hv]
      unfold post_detail
      apply List.find?_eq_none.mpr
      intro q hq
      simp only [beq_iff_eq]
      intro hid
      have hqP : q = P := eq_of_id_eq huniq (List.mem_filter.mp hq).1 hP hid
      subst hqP
      have : detail_filter viewer now q = true := (List.mem_filter.mp hq).2
      rw [detail_filter_eq_visible_spec] at this
      exact hv this
  · intro pid hnone
    unfold post_detail
    apply List.find?_eq_none.mpr
    intro q hq
    simp only [beq_iff_eq]
    exact hnone q (List.mem_filter.mp hq).1

/-- Witness for C1: with a concrete store, viewer 1 sees the published post
and gets NotFound for another author's draft and for a missing id. -/
theorem C1_witness :
    post_detail [postPub, postDraft] (some 1) 100 1 = some postPub ∧
    post_detail [postPub, postDraft] (some 1) 100 2 = none ∧
    post_detail [postPub, postDraft] (some 1) 100 9 = none := by
  have h := C1_detail_matches_visibility [postPub, postDraft] (some 1) 100 (by decide)
  refine ⟨?_, ?_, ?_⟩
  · exact (h.1 postPub (by decide)).trans (by decide)
  · exact (h.1 postDraft (by decide)).trans (by decide)
  · exact h.2 9 (by decide)

/-! ### C4 -/

/-- C4: for edit/delete operations on posts and comments, an anonymous
identity is redirected to login, an authenticated non-author gets Forbidden,
only the exact author proceeds, and for an authenticated identity the
existence check precedes the authorship check, so a missing resource yields
NotFound (never Forbidden). -/
theorem C4_author_gate (posts : List Post) (comments : List Comment)
    (viewer : Viewer) (pid cid : Nat) :
    (viewer = none →
      post_modify_gate posts viewer pid = .authenticationRequired ∧
      comment_modify_gate comments viewer cid = .authenticationRequired) ∧
    (∀ u, viewer = some u → posts.find? (fun p => p.id == pid) = none →
      post_modify_gate posts viewer pid = .notFound) ∧
    (∀ u p, viewer = some u → posts.find? (fun p => p.id == pid) = some p →
      p.author ≠ u → post_modify_gate posts viewer pid = .forbidden) ∧
    (∀ u p, viewer = some u → posts.find? (fun p => p.id == pid) = some p →
      p.author = u → post_modify_gate posts viewer pid = .allowed p) ∧
    (∀ u, viewer = some u → comments.find? (fun c => c.id == cid) = none →
      comment_modify_gate comments viewer cid = .notFound) ∧
    (∀ u c, viewer = some u → comments.find? (fun c => c.id == cid) = some c →
      c.author ≠ u → comment_modify_gate comments viewer cid = .forbidden) ∧
    (∀ u c, viewer = some u → comments.find? (fun c => c.id == cid) = some c →
      c.author = u → comment_modify_gate comments viewer cid = .allowed c) := by
  refine ⟨?_, ?_, ?_, ?_, ?_, ?_, ?_⟩
  · rintro rfl
    exact ⟨rfl, rfl⟩
  · rintro u rfl hfind
    simp [post_modify_gate, hfind]
  · rintro u p rfl hfind hne
    simp [post_modify_gate, hfind, hne]
  · rintro u p rfl hfind heq
    simp [post_modify_gate, hfind, heq]
  · rintro u rfl hfind
    simp [comment_modify_gate, hfind]
  · rintro u c rfl hfind hne
    simp [comment_modify_gate, hfind, hne]
  · rintro u c rfl hfind heq
    simp [comment_modify_gate, hfind, heq]

/-- Witness for C4: concrete dispatch outcomes for an anonymous request, a
missing post, a non-author and the author. -/
theorem C4_witness :
    post_modify_gate [postPub] none 1 = .authenticationRequired ∧
    post_modify_gate [postPub] (some 1) 9 = .notFound ∧
    post_modify_gate [postPub] (some 2) 1 = .forbidden ∧
    post_modify_gate [postPub] (some 1) 1 = .allowed postPub ∧
    comment_modify_gate [⟨5, 3, 1, "hi"⟩] (some 4) 5 = .forbidden := by
  refine ⟨?_, ?_, ?_, ?_, ?_⟩
  · exact ((C4_author_gate [postPub] [] none 1 0).1 rfl).1
  · exact (C4_author_gate [postPub] [] (some 1) 9 0).2.1 1 rfl (by decide)
  · exact (C4_author_gate [postPub] [] (some 2) 1 0).2.2.1 2 postPub rfl (by decide) (by decide)
  · exact (C4_author_gate [postPub] [] (some 1) 1 0).2.2.2.1 1 postPub rfl (by decide) (by decide)
  · exact (C4_author_gate [] [⟨5, 3, 1, "hi"⟩] (some 4) 0 5).2.2.2.2.2.1 4 ⟨5, 3, 1, "hi"⟩
      rfl (by decide) (by decide)

/-! ### C2 -/

/-- C2: for every viewer, including a post's own author, neither the home
listing nor the category listing can contain a post that is unpublished,
whose category is unpublished, or whose publication date is in the future;
the published-only filter is unconditional (the viewer argument never enters
the filters). -/
theorem C2_listings_published_only (cats : List Category) (posts : List Post)
    (viewer : Viewer) (now : Nat) (slug : String) (page : Option Int) :
    (∀ p ∈ index posts viewer now page,
      p.is_published = true ∧ categoryPublished p = true ∧ p.pub_date ≤ now) ∧
    (∀ c pl, category_posts cats posts viewer now slug page = some (c, pl) →
      ∀ p ∈ pl,
        p.is_published = true ∧ categoryPublished p = true ∧ p.pub_date ≤ now) := by
  constructor
  · intro p hp
    have h1 : p ∈ index_posts posts now := mem_of_mem_get_page hp
    have h2 := (List.mem_filter.mp (mem_sortByPubDateDesc.mp h1)).2
    simp only [Bool.and_eq_true, decide_eq_true_eq] at h2
    exact ⟨h2.1.2, h2.2, h2.1.1⟩
  · intro c pl hres p hp
    unfold category_posts at hres
    cases hfind : cats.find? (fun c => c.slug == slug && c.is_published) with
    | none => rw [hfind] at hres; exact absurd hres (by simp)
    | some c0 =>
      rw [hfind] at hres
      have hinj := Option.some.inj hres
      have hc : c0 = c := congrArg Prod.fst hinj
      have hpl : get_page (category_post_list posts c0 now) 10 page = pl :=
        congrArg Prod.snd hinj
      subst hc
      rw [← hpl] at hp
      have h1 : p ∈ category_post_list posts c0 now := mem_of_mem_get_page hp
      have h2 := (List.mem_filter.mp (mem_sortByPubDateDesc.mp h1)).2
      have hc0 := List.find?_some hfind
      simp only [Bool.and_eq_true, beq_iff_eq, decide_eq_true_eq] at h2 hc0
      have hcat : categoryPublished p = c0.is_published := by
        unfold categoryPublished
        rw [h2.1.1]
      exact ⟨h2.1.2, by rw [hcat]; exact hc0.2, h2.2⟩

/-- Witness for C2: in a concrete store viewed by the draft's own author, any
post of the home page satisfies the published-only conditions. -/
theorem C2_witness :
    postPub.is_published = true ∧ categoryPublished postPub = true ∧
    postPub.pub_date ≤ 100 := by
  exact (C2_listings_published_only [catNews] [postPub, postDraft] (some 2) 100
    "news" none).1 postPub (by decide)

/-! ### C3 -/

/-- C3: the profile listing for a user returns all of that user's posts when
the viewer is the user, and exactly the published-only subset of that user's
posts for any other viewer, anonymous included. -/
theorem C3_profile_listing (posts : List Post) (viewer : Viewer) (target : Nat)
    (now : Nat) :
    (viewer = some target →
      ∀ p, p ∈ profile_posts posts viewer target now ↔
        (p ∈ posts ∧ p.author = target)) ∧
    (viewer ≠ some target →
      ∀ p, p ∈ profile_posts posts viewer target now ↔
        (p ∈ posts ∧ p.author = target ∧ p.is_published = true ∧
         categoryPublished p = true ∧ p.pub_date ≤ now)) := by
  constructor
  · rintro rfl p
    simp [profile_posts, mem_sortByPubDateDesc, List.mem_filter, beq_iff_eq]
  · intro hne p
    have hv : (viewer == some target) = false := beq_eq_false_iff_ne.mpr hne
    simp [profile_posts, hv, mem_sortByPubDateDesc, List.mem_filter, beq_iff_eq,
      and_assoc]

/-- Witness for C3: the author sees their own deferred post on their profile;
another authenticated user does not. -/
theorem C3_witness :
    postFuture ∈ profile_posts [postPub, postDraft, postFuture] (some 1) 1 100 ∧
    postFuture ∉ profile_posts [postPub, postDraft, postFuture] (some 2) 1 100 := by
  constructor
  · exact ((C3_profile_listing [postPub, postDraft, postFuture] (some 1) 1 100).1
      rfl postFuture).mpr (by decide)
  · intro h
    have := ((C3_profile_listing [postPub, postDraft, postFuture] (some 2) 1 100).2
      (by decide) postFuture).mp h
    exact absurd this (by decide)

/-! ### C5 -/

/-- C5: with an authenticated requester and an existing post, a valid POST to
add-comment appends exactly one comment whose author is the requester and
whose parent is the given post and redirects to that post's detail view; an
invalid POST or a GET redirects to the same detail view with the comment
store unchanged; a missing post yields NotFound (bare existence is the only
check on the post). -/
theorem C5_add_comment (posts : List Post) (comments : List Comment)
    (u : Nat) (text : String) (pid newId : Nat) :
    (posts.find? (fun p => p.id == pid) = none →
      add_comment posts comments (some u) .post text pid newId = .notFound) ∧
    (∀ P, posts.find? (fun p => p.id == pid) = some P →
      (comment_form_valid text = true →
        add_comment posts comments (some u) .post text pid newId =
          .redirected pid (comments ++
            [{ id := newId, author := u, post := pid, text := strip text }])) ∧
      (comment_form_valid text = false →
        add_comment posts comments (some u) .post text pid newId =
          .redirected pid comments) ∧
      (add_comment posts comments (some u) .get text pid newId =
          .redirected pid comments)) := by
  constructor
  · intro h
    simp [add_comment, h]
  · intro P hP
    refine ⟨?_, ?_, ?_⟩
    · intro hv
      simp [add_comment, hP, hv]
    · intro hv
      simp [add_comment, hP, hv]
    · simp [add_comment, hP]

/-- Witness for C5: concrete outcomes of a valid POST, a blank POST and a GET
against an existing post. -/
theorem C5_witness :
    add_comment [postPub] [] (some 3) .post " hi " 1 7 =
      .redirected 1 [{ id := 7, author := 3, post := 1, text := "hi" }] ∧
    add_comment [postPub] [] (some 3) .post "   " 1 7 = .redirected 1 [] ∧
    add_comment [postPub] [] (some 3) .get "hi" 1 7 = .redirected 1 [] := by
  refine ⟨?_, ?_, ?_⟩
  · exact (((C5_add_comment [postPub] [] 3 " hi " 1 7).2 postPub
      (by decide)).1 (by decide)).trans (by decide)
  · exact ((C5_add_comment [postPub] [] 3 "   " 1 7).2 postPub
      (by decide)).2.1 (by decide)
  · exact ((C5_add_comment [postPub] [] 3 "hi" 1 7).2 postPub (by decide)).2.2

/-! ### C6 -/

/-- C6: after `PostForm.__init__`, the selectable category choices are
exactly the published categories ordered by title and the selectable location
choices exactly the published locations ordered by name; the form's bound
instance — including an already-assigned unpublished category or location —
is left untouched (the restriction only filters the offered choices). -/
theorem C6_post_form_choices (cats : List Category) (locs : List Location)
    (now : Nat) (inst : PostFormInstance) :
    (∀ c, c ∈ (postFormInit cats locs now inst).category_choices ↔
      (c ∈ cats ∧ c.is_published = true)) ∧
    (postFormInit cats locs now inst).category_choices.Sorted
      (fun a b => strLe a.title b.title = true) ∧
    (∀ l, l ∈ (postFormInit cats locs now inst).location_choices ↔
      (l ∈ locs ∧ l.is_published = true)) ∧
    (postFormInit cats locs now inst).location_choices.Sorted
      (fun a b => strLe a.name b.name = true) ∧
    (postFormInit cats locs now inst).inst = inst := by
  refine ⟨?_, ?_, ?_, ?_, rfl⟩
  · intro c
    simp [postFormInit, (List.perm_insertionSort _ _).mem_iff, List.mem_filter]
  · haveI : IsTotal Category (fun a b => strLe a.title b.title = true) :=
      ⟨fun a b => lexLe_total _ _⟩
    haveI : IsTrans Category (fun a b => strLe a.title b.title = true) :=
      ⟨fun a b c => lexLe_trans _ _ _⟩
    exact List.sorted_insertionSort _ _
  · intro l
    simp [postFormInit, (List.perm_insertionSort _ _).mem_iff, List.mem_filter]
  · haveI : IsTotal Location (fun a b => strLe a.name b.name = true) :=
      ⟨fun a b => lexLe_total _ _⟩
    haveI : IsTrans Location (fun a b => strLe a.name b.name = true) :=
      ⟨fun a b c => lexLe_trans _ _ _⟩
    exact List.sorted_insertionSort _ _

/-! ### C7 -/

theorem pageItems_length {α : Type} (l : List α) (per n : Nat) :
    (pageItems l per n).length = min per (l.length - (n - 1) * per) := by
  simp [pageItems]

/-- C7 counterexample: with 25 qualifying posts the valid pages are 1..3; the
claim says a request below 1 returns the nearest valid page, which for page 0
is the first page, but `get_page` returns the last page, whose contents
differ from the first page's. -/
theorem C7_counterexample :
    get_page samplePosts25 10 (some 0) = pageItems samplePosts25 10 3 ∧
    get_page samplePosts25 10 (some 0) ≠ pageItems samplePosts25 10 1 := by
  decide

/-- C7 (amended): every listing page holds at most 10 posts; every full page
holds exactly 10 and the last page the remainder; a numeric page request
below 1 or beyond the last page returns the last page, and a missing or
non-numeric request returns the first page; no out-of-range request fails. -/
theorem C7_pagination (l : List Post) (page : Option Int) (k : Nat) :
    ((get_page l 10 page).length ≤ 10) ∧
    (1 ≤ k → k < numPages l.length 10 → (pageItems l 10 k).length = 10) ∧
    ((pageItems l 10 (numPages l.length 10)).length
        = l.length - 10 * (numPages l.length 10 - 1)) ∧
    (∀ n : Int, n < 1 ∨ (numPages l.length 10 : Int) < n →
      get_page l 10 (some n) = pageItems l 10 (numPages l.length 10)) ∧
    (get_page l 10 none = pageItems l 10 1) := by
  refine ⟨?_, ?_, ?_, ?_, rfl⟩
  · unfold get_page
    cases page with
    | none => rw [pageItems_length]; omega
    | some n =>
      simp only
      split <;> rw [pageItems_length] <;> omega
  · intro hk1 hk2
    rw [pageItems_length]
    unfold numPages at hk2
    omega
  · rw [pageItems_length]
    unfold numPages
    omega
  · intro n hn
    have hc : (decide (n < 1) || decide ((numPages l.length 10 : Int) < n)) = true := by
      rcases hn with h | h <;> simp [h]
    simp [get_page, hc]

/-- Witness for C7: on a concrete store of 25 posts, page 2 is full and an
out-of-range numeric request returns the last page. -/
theorem C7_witness :
    (pageItems samplePosts25 10 2).length = 10 ∧
    get_page samplePosts25 10 (some 100) =
      pageItems samplePosts25 10 (numPages samplePosts25.length 10) := by
  constructor
  · exact (C7_pagination samplePosts25 none 2).2.1 (by decide) (by decide)
  · exact (C7_pagination samplePosts25 none 2).2.2.2.1 100 (by decide)

/-! ### C8 -/

/-- C8: a fresh `PostForm` defaults the `pub_date` field to the current time
truncated to the minute; a form editing an existing post with a stored
`pub_date` pre-populates the field with the stored value truncated to the
minute. -/
theorem C8_pub_date_initial (cats : List Category) (locs : List Location)
    (now : Nat) (inst : PostFormInstance) :
    (inst.pk = none →
      (postFormInit cats locs now inst).initial_pub_date =
        some (truncateToMinute now)) ∧
    (∀ pk d, inst.pk = some pk → inst.pub_date = some d →
      (postFormInit cats locs now inst).initial_pub_date =
        some (truncateToMinute d)) := by
  constructor
  · intro h
    simp [postFormInit, h]
  · intro pk d hpk hd
    simp [postFormInit, hpk, hd]

/-- Witness for C8: concrete timestamps 125 and 185 truncate to 120 and 180. -/
theorem C8_witness :
    (postFormInit [] [] 125
      { pk := none, pub_date := none, category := none, location := none
      }).initial_pub_date = some 120 ∧
    (postFormInit [] [] 125
      { pk := some 1, pub_date := some 185, category := none, location := none
      }).initial_pub_date = some 180 := by
  constructor
  · exact ((C8_pub_date_initial [] [] 125 _).1 rfl).trans (by decide)
  · exact ((C8_pub_date_initial [] [] 125 _).2 1 185 rfl rfl).trans (by decide)

/-! ### C9 -/

/-- C9: registration with an email already present in the store fails with
DuplicateEmail and leaves the user store unchanged; with a fresh email it
persists exactly one user whose username, email, first name and last name
come from the input, the optional names defaulting to the empty string. -/
theorem C9_registration (users : List User) (newId : Nat) (inp : RegistrationInput) :
    ((∃ u ∈ users, u.email = inp.email) →
      register users newId inp = .duplicateEmail ∧
      register_store users newId inp = users) ∧
    ((∀ u ∈ users, u.email ≠ inp.email) →
      register users newId inp = .registered (users ++
        [{ id := newId, username := inp.username, email := inp.email
         , first_name := inp.first_name.getD "", last_name := inp.last_name.getD "" }])
        { id := newId, username := inp.username, email := inp.email
        , first_name := inp.first_name.getD "", last_name := inp.last_name.getD "" } ∧
      register_store users newId inp = users ++
        [{ id := newId, username := inp.username, email := inp.email
         , first_name := inp.first_name.getD "", last_name := inp.last_name.getD "" }]) := by
  constructor
  · rintro ⟨u, hu, he⟩
    have hany : users.any (fun v => v.email == inp.email) = true :=
      List.any_eq_true.mpr ⟨u, hu, beq_iff_eq.mpr he⟩
    constructor <;> simp [register, register_store, clean_email, hany]
  · intro hall
    have hany : users.any (fun v => v.email == inp.email) = false := by
      rw [List.any_eq_false]
      intro u hu
      simp only [beq_iff_eq]
      exact hall u hu
    constructor <;> simp [register, register_store, clean_email, hany]

/-- Witness for C9: a second registration with alice's email fails and leaves
the store unchanged; a fresh email persists the sanitized user. -/
theorem C9_witness :
    register [aliceUser] 2
      { username := "bob", email := "alice@example.com"
      , first_name := none, last_name := none } = .duplicateEmail ∧
    register_store [aliceUser] 2
      { username := "bob", email := "alice@example.com"
      , first_name := none, last_name := none } = [aliceUser] ∧
    register [aliceUser] 2
      { username := "bob", email := "bob@example.com"
      , first_name := some "Bo", last_name := none } =
      .registered [aliceUser,
        { id := 2, username := "bob", email := "bob@example.com"
        , first_name := "Bo", last_name := "" }]
        { id := 2, username := "bob", email := "bob@example.com"
        , first_name := "Bo", last_name := "" } := by
  refine ⟨?_, ?_, ?_⟩
  · exact ((C9_registration [aliceUser] 2
      { username := "bob", email := "alice@example.com"
      , first_name := none, last_name := none }).1 ⟨aliceUser, by decide, rfl⟩).1
  · exact ((C9_registration [aliceUser] 2
      { username := "bob", email := "alice@example.com"
      , first_name := none, last_name := none }).1 ⟨aliceUser, by decide, rfl⟩).2
  · exact (((C9_registration [aliceUser] 2
      { username := "bob", email := "bob@example.com"
      , first_name := some "Bo", last_name := none }).2
      (by decide)).1).trans (by decide)

/-! ### C10 -/

/-- C10: the comment edit and delete views never check that the addressed
comment belongs to the post named in the URL: for the authenticated author of
comment `c`, the operations succeed for an arbitrary existing post id
`pidArg`, modify or delete `c`, and redirect to the detail view of `pidArg`
as given in the request — not of `c.post`.  The hypotheses about `P` only
record that `pidArg` is the id of some existing post; neither function even
receives the post store. -/
theorem C10_comment_views_ignore_post_id (posts : List Post)
    (comments : List Comment) (u : Nat) (P : Post) (c : Comment) (pidArg : Nat)
    (newText : String) (_hP : P ∈ posts) (_hPid : P.id = pidArg)
    (hc : comments.find? (fun d => d.id == c.id) = some c) (hauth : c.author = u) :
    comment_update comments (some u) pidArg c.id newText =
      .success (comments.map (fun d =>
        if d.id == c.id then { d with text := newText } else d)) pidArg ∧
    comment_delete comments (some u) pidArg c.id =
      .success (comments.filter (fun d => !(d.id == c.id))) pidArg := by
  constructor
  · simp [comment_update, comment_modify_gate, hc, hauth]
  · simp [comment_delete, comment_modify_gate, hc, hauth]

/-- Witness for C10: comment 5 belongs to post 2, yet editing and deleting it
through post id 1 succeed and redirect to post 1's detail view. -/
theorem C10_witness :
    comment_update [{ id := 5, author := 3, post := 2, text := "old" }] (some 3) 1 5
      "new" = .success [{ id := 5, author := 3, post := 2, text := "new" }] 1 ∧
    comment_delete [{ id := 5, author := 3, post := 2, text := "old" }] (some 3) 1 5 =
      .success [] 1 := by
  have h := C10_comment_views_ignore_post_id [postPub]
    [{ id := 5, author := 3, post := 2, text := "old" }] 3 postPub
    { id := 5, author := 3, post := 2, text := "old" } 1 "new"
    (by decide) (by decide) (by decide) rfl
  exact ⟨h.1.trans (by decide), h.2.trans (by decide)⟩

end Blogicum
